import Mathlib

/-!
Verification of the fetch bridge in `src/src-tauri/src/main.rs`.

The only reviewable logic of the repository is the Tauri command
`fetch_odds(url: String) -> Result<String, String>`: it constructs a fresh
`reqwest::Client`, builds a header map holding exactly one `User-Agent`
entry, issues one GET request to `url`, and returns the decoded body text,
mapping any client error `e` to `e.to_string()`.

The HTTP client itself (reqwest) is not part of the repository, so it is
modelled as an oracle (`Network`): a function from requests to either an
error value or a response, where a response carries a status code and the
outcome of its body read/decode step. The body of `fetch_odds` is embedded
as a small effect program (`FetchEff`) whose effects are exactly the two
client interactions of the source — sending a request and reading a
response body — so that the number and shape of issued requests, and the
independence of interleaved invocations, are statable.
-/

/-- Modelled from the spec: an error value of the underlying HTTP client
(reqwest, absent from the repository), known to the bridge only through its
textual description, the string produced by `e.to_string()` in
`main.rs` lines 25 and 31. -/
structure RError where
  render : String
deriving DecidableEq, Repr

instance {ε α : Type} [DecidableEq ε] [DecidableEq α] : DecidableEq (Except ε α)
  | .ok a, .ok b =>
    if h : a = b then .isTrue (congrArg Except.ok h)
    else .isFalse fun he => h (Except.ok.inj he)
  | .error a, .error b =>
    if h : a = b then .isTrue (congrArg Except.error h)
    else .isFalse fun he => h (Except.error.inj he)
  | .ok _, .error _ => .isFalse fun he => Except.noConfusion he
  | .error _, .ok _ => .isFalse fun he => Except.noConfusion he

/-- Modelled from the spec: an HTTP response as seen by the bridge — a
status code (never inspected by the bridge) and the outcome of reading and
decoding the full body as text (`response.text()`, which may itself fail). -/
structure Response where
  status : Nat
  textResult : Except RError String
deriving DecidableEq, Repr

/-- An outbound HTTP request as the bridge constructs it: a method, a
target URL, and the header list attached to it. -/
structure Request where
  method : String
  url : String
  headers : List (String × String)
deriving DecidableEq, Repr

/-- Modelled from the spec: the external world behind the HTTP client — a
deterministic oracle answering each request with either a client error or
a response. DNS failures, connection failures, TLS failures and
malformed-URL rejections all surface as the `Except.error` branch, exactly
as `send()` surfaces them to the caller. -/
structure Network where
  send : Request → Except RError Response

/-- An HTTP client handle. In the source a client holds no call-relevant
mutable state; its observable behavior is the request/response function it
realises. -/
structure Client where
  send : Request → Except RError Response

/-- Models `reqwest::Client::new()` (main.rs line 11): a freshly
constructed client simply realises the behavior of the ambient world
`net`; construction reads and writes no shared state. -/
def Client.new (net : Network) : Client :=
  ⟨net.send⟩

/-- The header name inserted by the source (`reqwest::header::USER_AGENT`,
main.rs line 15). -/
def USER_AGENT : String := "user-agent"

/-- The exact literal inserted as the `User-Agent` value
(main.rs lines 15-17). -/
def uaValue : String :=
  "Mozilla/5.0 (Windows NT 10.0; Win64; x64) AppleWebKit/537.36 (KHTML, like Gecko) Chrome/91.0.4472.124 Safari/537.36"

/-- `HeaderMap::insert` on a map not containing the key appends the pair
(the source inserts into a freshly created, empty map). -/
def headerInsert (m : List (String × String)) (k v : String) : List (String × String) :=
  m ++ [(k, v)]

/-- The header map built in main.rs lines 14-17: `HeaderMap::new()`
followed by one `insert(USER_AGENT, ...)`. -/
def mkHeaders : List (String × String) :=
  headerInsert [] USER_AGENT uaValue

/-- The request constructed in main.rs lines 20-22:
`client.get(url).headers(headers)` — method GET, the given URL, and
exactly the headers of `mkHeaders`. -/
def buildRequest (url : String) : Request :=
  { method := "GET", url := url, headers := mkHeaders }

/-- The effect programs of the bridge: a program either is finished, or
sends a request and continues on the client outcome, or reads a received
response body and continues on the read outcome. These are the only two
client interactions in the source; the type has no filesystem, process or
state effect. -/
inductive FetchEff (α : Type) where
  | pure (a : α)
  | send (req : Request) (k : Except RError Response → FetchEff α)
  | readText (resp : Response) (k : Except RError String → FetchEff α)

/-- The body of `fetch_odds` (main.rs lines 20-33) as an effect program:
send the constructed GET request; on a send error `e` return
`Err(e.to_string())`; otherwise read the body text; on a read error `e`
return `Err(e.to_string())`; otherwise return `Ok(text)`. -/
def fetch_prog (url : String) : FetchEff (Except String String) :=
  .send (buildRequest url) fun r =>
    match r with
    | .error e => .pure (.error e.render)
    | .ok response =>
        .readText response fun t =>
          match t with
          | .error e => .pure (.error e.render)
          | .ok text => .pure (.ok text)

/-- Runs an effect program against a client: each send is answered by the
client, each body read by the response's own read outcome. -/
def FetchEff.exec (c : Client) : FetchEff α → α
  | .pure a => a
  | .send req k => FetchEff.exec c (k (c.send req))
  | .readText resp k => FetchEff.exec c (k resp.textResult)

/-- Runs an effect program and also records, in order, every request it
sends. -/
def FetchEff.execT (c : Client) : FetchEff α → α × List Request
  | .pure a => (a, [])
  | .send req k =>
      let r := FetchEff.execT c (k (c.send req))
      (r.1, req :: r.2)
  | .readText resp k => FetchEff.execT c (k resp.textResult)

/-- `fetch_odds` (main.rs lines 9-34): construct a fresh client and run
the fetch program against it. -/
def fetch_odds (net : Network) (url : String) : Except String String :=
  FetchEff.exec (Client.new net) (fetch_prog url)

/-- The requests one invocation of `fetch_odds` sends to the world. -/
def fetchTrace (net : Network) (url : String) : List Request :=
  (FetchEff.execT (Client.new net) (fetch_prog url)).2

/-- One step of an effect program: resolve its first pending effect, if
any. -/
def FetchEff.step (c : Client) : FetchEff α → FetchEff α
  | .pure a => .pure a
  | .send req k => k (c.send req)
  | .readText resp k => k resp.textResult

/-- Runs two effect programs concurrently under an explicit interleaving
schedule: `true` steps the first program, `false` the second; the run
yields a pair once both programs are finished, and `none` if the schedule
ends first. -/
def execPair (c : Client) : FetchEff α → FetchEff β → List Bool → Option (α × β)
  | .pure a, .pure b, _ => some (a, b)
  | _, _, [] => none
  | p, q, true :: s => execPair c (FetchEff.step c p) q s
  | p, q, false :: s => execPair c p (FetchEff.step c q) s

/-- A sequence of `fetch_odds` invocations, in order, as the host shell
would issue them. -/
def runCalls (net : Network) : List String → List (Except String String)
  | [] => []
  | u :: us => fetch_odds net u :: runCalls net us

/-- The source's strategy: every call constructs a fresh client
(main.rs line 11). -/
def fetchAllFresh (net : Network) : List String → List (Except String String)
  | [] => []
  | u :: us => fetch_odds net u :: fetchAllFresh net us

/-- Follows the spec's words (design note §9): a single shared, read-only
client handle, constructed once and reused for every call. -/
def fetchAllShared (c : Client) : List String → List (Except String String)
  | [] => []
  | u :: us => FetchEff.exec c (fetch_prog u) :: fetchAllShared c us

/-! Demonstration networks, used to instantiate the theorems below at
concrete inputs. -/

/-- A world in which every request is answered with status 200 and body
`hello`. -/
def demoNet : Network :=
  ⟨fun _ => .ok ⟨200, .ok "hello"⟩⟩

/-- A world in which every request is answered with status 404 and body
`oops`. -/
def notFoundNet : Network :=
  ⟨fun _ => .ok ⟨404, .ok "oops"⟩⟩

/-- A world in which the client rejects every request at send time, as it
does a malformed URL. -/
def errNet : Network :=
  ⟨fun _ => .error ⟨"builder error: relative URL without a base"⟩⟩

/-- A world answering by URL: the request for `https://a.test/` gets body
`A`, every other request gets body `B`. -/
def twoUrlNet : Network :=
  ⟨fun r => if r.url = "https://a.test/" then .ok ⟨200, .ok "A"⟩ else .ok ⟨200, .ok "B"⟩⟩

/-- A world agreeing with `demoNet` on every GET request but not
elsewhere. -/
def demoNetVariant : Network :=
  ⟨fun r => if r.method = "GET" then .ok ⟨200, .ok "hello"⟩ else .error ⟨"x"⟩⟩

/-! Helper lemmas. -/

/-- Resolving one effect does not change the final answer of a run. -/
theorem FetchEff.exec_step (c : Client) (p : FetchEff α) :
    FetchEff.exec c (FetchEff.step c p) = FetchEff.exec c p := by
  cases p <;> rfl

/-- Whatever completing interleaving schedule is chosen, a pair run yields
exactly the answers of the two programs run in isolation. -/
theorem execPair_sound (c : Client) :
    ∀ (s : List Bool) (p : FetchEff α) (q : FetchEff β) (a : α) (b : β),
      execPair c p q s = some (a, b) →
      a = FetchEff.exec c p ∧ b = FetchEff.exec c q := by
  intro s
  induction s with
  | nil =>
    intro p q a b h
    cases p <;> cases q <;> simp [execPair] at h
    obtain ⟨h1, h2⟩ := h
    subst h1; subst h2
    exact ⟨rfl, rfl⟩
  | cons bit s ih =>
    intro p q a b h
    cases p with
    | pure x =>
      cases q with
      | pure y =>
        simp [execPair] at h
        obtain ⟨h1, h2⟩ := h
        subst h1; subst h2
        exact ⟨rfl, rfl⟩
      | send req k =>
        cases bit with
        | true =>
          have := ih (FetchEff.step c (.pure x)) (.send req k) a b (by simpa [execPair] using h)
          simpa [FetchEff.exec_step] using this
        | false =>
          have := ih (.pure x) (FetchEff.step c (.send req k)) a b (by simpa [execPair] using h)
          simpa [FetchEff.exec_step] using this
      | readText resp k =>
        cases bit with
        | true =>
          have := ih (FetchEff.step c (.pure x)) (.readText resp k) a b (by simpa [execPair] using h)
          simpa [FetchEff.exec_step] using this
        | false =>
          have := ih (.pure x) (FetchEff.step c (.readText resp k)) a b (by simpa [execPair] using h)
          simpa [FetchEff.exec_step] using this
    | send req k =>
      cases bit with
      | true =>
        have := ih (FetchEff.step c (.send req k)) q a b (by simpa [execPair] using h)
        simpa [FetchEff.exec_step] using this
      | false =>
        have := ih (.send req k) (FetchEff.step c q) a b (by simpa [execPair] using h)
        simpa [FetchEff.exec_step] using this
    | readText resp k =>
      cases bit with
      | true =>
        have := ih (FetchEff.step c (.readText resp k)) q a b (by simpa [execPair] using h)
        simpa [FetchEff.exec_step] using this
      | false =>
        have := ih (.readText resp k) (FetchEff.step c q) a b (by simpa [execPair] using h)
        simpa [FetchEff.exec_step] using this

/-- One invocation sends exactly the one constructed request. -/
theorem fetchTrace_eq (net : Network) (url : String) :
    fetchTrace net url = [buildRequest url] := by
  unfold fetchTrace fetch_prog
  cases h : (Client.new net).send (buildRequest url) with
  | error e => simp [FetchEff.execT, h]
  | ok resp =>
    cases ht : resp.textResult <;> simp [FetchEff.execT, h, ht]

/-! Claim theorems. -/

/-- C1: for every URL for which the client's send and body-read both
succeed with body text B, `fetch_odds url` returns `Ok` containing exactly
B, with no transformation applied. -/
theorem fetch_odds_success_exact_body (net : Network) (url : String)
    (resp : Response) (body : String)
    (hs : net.send (buildRequest url) = .ok resp)
    (ht : resp.textResult = .ok body) :
    fetch_odds net url = .ok body := by
  simp [fetch_odds, fetch_prog, FetchEff.exec, Client.new, hs, ht]

/-- Witness for C1: in `demoNet` (status 200, body `hello`), fetching
returns exactly `hello`. -/
theorem fetch_odds_success_exact_body_witness :
    demoNet.send (buildRequest "https://example.test/ok") = .ok ⟨200, .ok "hello"⟩ ∧
    fetch_odds demoNet "https://example.test/ok" = .ok "hello" :=
  ⟨rfl, fetch_odds_success_exact_body demoNet "https://example.test/ok"
    ⟨200, .ok "hello"⟩ "hello" rfl rfl⟩

/-- C2: `fetch_odds` never inspects the status code: for every response
with any status whatsoever whose body reads as text B, it returns success
with B, never a failure. -/
theorem fetch_odds_ignores_status (net : Network) (url : String)
    (status : Nat) (bodyRead : Except RError String) (body : String)
    (hs : net.send (buildRequest url) = .ok ⟨status, bodyRead⟩)
    (ht : bodyRead = .ok body) :
    fetch_odds net url = .ok body := by
  subst ht
  simp [fetch_odds, fetch_prog, FetchEff.exec, Client.new, hs]

/-- Witness for C2: a 404 response with readable body `oops` still yields
success `oops`. -/
theorem fetch_odds_ignores_status_witness :
    notFoundNet.send (buildRequest "https://example.test/missing") = .ok ⟨404, .ok "oops"⟩ ∧
    fetch_odds notFoundNet "https://example.test/missing" = .ok "oops" :=
  ⟨rfl, fetch_odds_ignores_status notFoundNet "https://example.test/missing"
    404 (.ok "oops") "oops" rfl rfl⟩

/-- C3: every request an invocation issues — there is exactly the one
constructed request — has method GET and carries exactly one header, the
`User-Agent` with the fixed browser-impersonating literal value. -/
theorem fetch_odds_request_method_and_headers (net : Network) (url : String) :
    fetchTrace net url = [buildRequest url] ∧
    (buildRequest url).method = "GET" ∧
    (buildRequest url).headers = [(USER_AGENT, uaValue)] :=
  ⟨fetchTrace_eq net url, rfl, rfl⟩

/-- C4: `fetch_odds` fails exactly when send or body-read fails, and the
error it returns is exactly the underlying failure's string rendering, on
the single string-typed error channel. -/
theorem fetch_odds_error_iff (net : Network) (url : String) (m : String) :
    fetch_odds net url = .error m ↔
      ((∃ e, net.send (buildRequest url) = .error e ∧ m = e.render) ∨
       (∃ resp e, net.send (buildRequest url) = .ok resp ∧
          resp.textResult = .error e ∧ m = e.render)) := by
  cases hs : net.send (buildRequest url) with
  | error e =>
    simp [fetch_odds, fetch_prog, FetchEff.exec, Client.new, hs, eq_comm]
  | ok resp =>
    cases ht : resp.textResult with
    | error e =>
      simp [fetch_odds, fetch_prog, FetchEff.exec, Client.new, hs, ht, eq_comm]
    | ok body =>
      simp [fetch_odds, fetch_prog, FetchEff.exec, Client.new, hs, ht]

/-- C5: `fetch_odds` always terminates with either a success or a failure
result (for every input string, malformed URLs included), and when the
client rejects the request — as it does a malformed URL — with an error of
non-empty rendering, the returned failure string is that non-empty
rendering. -/
theorem fetch_odds_safe (net : Network) (url : String) (e : RError)
    (hsend : net.send (buildRequest url) = .error e)
    (hne : e.render ≠ "") :
    (fetch_odds net url = .error e.render ∧ e.render ≠ "") ∧
    (∀ (n : Network) (u : String),
      (∃ b, fetch_odds n u = .ok b) ∨ (∃ m, fetch_odds n u = .error m)) := by
  refine ⟨⟨?_, hne⟩, ?_⟩
  · simp [fetch_odds, fetch_prog, FetchEff.exec, Client.new, hsend]
  · intro n u
    cases h : fetch_odds n u with
    | ok b => exact Or.inl ⟨b, rfl⟩
    | error m => exact Or.inr ⟨m, rfl⟩

/-- Witness for C5: fetching `not a url` in a world where the client
rejects every request yields a failure with a non-empty error string. -/
theorem fetch_odds_safe_witness :
    errNet.send (buildRequest "not a url")
        = .error ⟨"builder error: relative URL without a base"⟩ ∧
    fetch_odds errNet "not a url"
        = .error "builder error: relative URL without a base" :=
  ⟨rfl, (fetch_odds_safe errNet "not a url"
    ⟨"builder error: relative URL without a base"⟩ rfl (by decide)).1.1⟩

/-- C6: invocations are stateless and independent: a sequence of calls is
just each call evaluated on its own, so the last call's result is the same
whatever calls (failing ones included) preceded it. -/
theorem fetch_odds_stateless (net : Network) (pre : List String) (u : String) :
    runCalls net (pre ++ [u]) = runCalls net pre ++ [fetch_odds net u] ∧
    (runCalls net (pre ++ [u])).getLast? = some (fetch_odds net u) := by
  have happ : ∀ (l : List String) (v : String),
      runCalls net (l ++ [v]) = runCalls net l ++ [fetch_odds net v] := by
    intro l v
    induction l with
    | nil => rfl
    | cons x xs ih => simp [runCalls, ih]
  refine ⟨happ pre u, ?_⟩
  rw [happ pre u]
  simp

/-- C7: each invocation issues exactly one outbound request — the trace of
client interactions is the one constructed GET, never zero and never more
(no retries). -/
theorem fetch_odds_exactly_one_request (net : Network) (url : String) :
    (fetchTrace net url).length = 1 ∧ fetchTrace net url = [buildRequest url] :=
  ⟨by rw [fetchTrace_eq]; rfl, fetchTrace_eq net url⟩

/-- C8: constructing a fresh client per call (the source's strategy) and
reusing one shared client handle give equal results on every input list of
URLs, and call by call. -/
theorem fetch_odds_client_strategy_equiv (net : Network) (urls : List String) :
    fetchAllFresh net urls = fetchAllShared (Client.new net) urls ∧
    (∀ u, fetch_odds net u = FetchEff.exec (Client.new net) (fetch_prog u)) := by
  refine ⟨?_, fun u => rfl⟩
  induction urls with
  | nil => rfl
  | cons u us ih => simp [fetchAllFresh, fetchAllShared, ih, fetch_odds]

/-- C9: two concurrent invocations with different URLs, run under any
interleaving schedule that completes both, each return exactly the result
of their own URL — the results equal the isolated runs, and the two
invocations issue distinct requests. -/
theorem fetch_odds_concurrent_no_cross_contamination
    (net : Network) (u₁ u₂ : String) (hne : u₁ ≠ u₂)
    (s : List Bool) (a b : Except String String)
    (hrun : execPair (Client.new net) (fetch_prog u₁) (fetch_prog u₂) s = some (a, b)) :
    a = fetch_odds net u₁ ∧ b = fetch_odds net u₂ ∧
    buildRequest u₁ ≠ buildRequest u₂ := by
  obtain ⟨ha, hb⟩ := execPair_sound (Client.new net) s (fetch_prog u₁) (fetch_prog u₂) a b hrun
  exact ⟨ha, hb, fun hc => hne (congrArg Request.url hc)⟩

/-- Witness for C9: in `twoUrlNet`, the interleaved pair of fetches of
`https://a.test/` and `https://b.test/` yields `A` for the first and `B`
for the second. -/
theorem fetch_odds_concurrent_no_cross_contamination_witness :
    execPair (Client.new twoUrlNet)
        (fetch_prog "https://a.test/") (fetch_prog "https://b.test/")
        [true, false, true, false] = some (.ok "A", .ok "B") ∧
    Except.ok "A" = fetch_odds twoUrlNet "https://a.test/" ∧
    Except.ok "B" = fetch_odds twoUrlNet "https://b.test/" := by
  have h := fetch_odds_concurrent_no_cross_contamination twoUrlNet
    "https://a.test/" "https://b.test/" (by decide)
    [true, false, true, false] (.ok "A") (.ok "B") rfl
  exact ⟨rfl, h.1, h.2.1⟩

/-- C10: `fetch_odds` is deterministic in its URL and the client's
behavior at the one request it makes: two worlds agreeing there give
identical results; nothing else influences the result. -/
theorem fetch_odds_deterministic (net₁ net₂ : Network) (url : String)
    (h : net₁.send (buildRequest url) = net₂.send (buildRequest url)) :
    fetch_odds net₁ url = fetch_odds net₂ url := by
  cases hs : net₂.send (buildRequest url) with
  | error e =>
    simp [fetch_odds, fetch_prog, FetchEff.exec, Client.new, h, hs]
  | ok resp =>
    cases ht : resp.textResult <;>
      simp [fetch_odds, fetch_prog, FetchEff.exec, Client.new, h, hs, ht]

/-- Witness for C10: `demoNet` and `demoNetVariant` agree on the GET
request for this URL, and the two fetches agree. -/
theorem fetch_odds_deterministic_witness :
    demoNet.send (buildRequest "https://example.test/ok")
        = demoNetVariant.send (buildRequest "https://example.test/ok") ∧
    fetch_odds demoNet "https://example.test/ok"
        = fetch_odds demoNetVariant "https://example.test/ok" :=
  ⟨rfl, fetch_odds_deterministic demoNet demoNetVariant "https://example.test/ok" rfl⟩
